import Mathlib

/-!
Verification of the build orchestrator `npm-packages/convex/scripts/build.py`.

The script is embedded shallowly:

* External commands are opaque: an environment `env : String → CmdResult`
  gives, for each command line, its exit status and combined captured output
  (the script merges stderr into stdout).  Exit statuses are modelled as
  naturals (a POSIX shell reports 0–255).
* `pathlib` paths are modelled by their component lists (`PyPath`); `str` of
  a path joins the components with "/" as on POSIX.
* Wall-clock readings are modelled as exact rationals: `dur name` is the
  elapsed time measured for the task `name`, `total` the elapsed time from
  the start of `main` to the report.
* The run of `main` is modelled as a trace of externally visible events
  (directory creation, file writes, prints, `shutil.move`, `shutil.rmtree`,
  process exit).  The thread pool has 20 workers for 8 tasks, every task is
  submitted at once and runs to completion even when a sibling fails
  (`sys.exit` only happens in the main thread and the pool's atexit hook
  joins the workers), so the per-task effects are modelled by executing the
  tasks to completion in submission order; the `sys.exit(1)` raised on the
  first failed future is modelled by the final `exitProcess 1` event.
* The `try: shutil.move("dist", temp_to_delete) except FileNotFoundError:
  pass` is modelled by the `distExists` flag: the move event is emitted
  exactly when the previously published directory exists.
-/

namespace ConvexBuild

/-- What one external command does: its exit status and its combined
captured output, as produced by `subprocess.run(cmd, shell=True, check=True,
text=True, stderr=STDOUT, stdout=PIPE)`. -/
structure CmdResult where
  exitCode : Nat
  output : String
deriving DecidableEq, Repr

/-- The data carried by the `subprocess.CalledProcessError` that `run`
re-raises: the command text, the exit status and the captured combined
output. -/
structure BuildError where
  cmd : String
  returncode : Nat
  output : String
deriving DecidableEq, Repr

/-- `str(subprocess.CalledProcessError(returncode, cmd))` for a positive
exit status, which is what `print(e)` in `run` writes. -/
def calledProcessErrorMsg (cmd : String) (code : Nat) : String :=
  "Command '" ++ cmd ++ "' returned non-zero exit status " ++ toString code ++ "."

/-- What a call to `run` produces: the lines it printed itself and either
success or the re-raised `CalledProcessError`. -/
structure RunResult where
  printed : List String
  result : Except BuildError Unit

/-- Shallow embedding of `run(cmd)` from `build.py`: execute the command,
merging stderr into stdout; on non-zero exit print
`"error while running", cmd`, `print(e)` and `print(e.output)`, then
re-raise the error. -/
def run (env : String → CmdResult) (cmd : String) : RunResult :=
  let r := env cmd
  if r.exitCode = 0 then
    { printed := [], result := .ok () }
  else
    { printed := ["error while running " ++ cmd,
                  calledProcessErrorMsg cmd r.exitCode,
                  r.output],
      result := .error ⟨cmd, r.exitCode, r.output⟩ }

/-- A `pathlib` path, as its list of components; `pathStr` is `str()` of it
on a POSIX platform. -/
abbrev PyPath := List String

def pathStr (p : PyPath) : String := String.intercalate "/" p

/-- A filesystem operation performed directly by a task body:
`Path.mkdir(parents=..., exist_ok=...)` or `Path.write_text(...)`. -/
inductive FsOp where
  | mkdir (path : PyPath) (parents existOk : Bool)
  | writeText (path : PyPath) (contents : String)
deriving DecidableEq, Repr

/-- The path an `FsOp` operates on. -/
def fsPath : FsOp → PyPath
  | .mkdir p _ _ => p
  | .writeText p _ => p

/-- An externally visible event of a run of `main`. -/
inductive Event where
  | fsOp (op : FsOp)
  | print (line : String)
  | move (src dst : PyPath)
  | rmtree (path : PyPath) (ignoreErrors : Bool)
  | exitProcess (code : Nat)
deriving DecidableEq, Repr

def Event.isMove : Event → Bool
  | .move _ _ => true
  | _ => false

def Event.isRmtree : Event → Bool
  | .rmtree _ _ => true
  | _ => false

/-- A task of the build script: its `__name__` (the key written into the
`times` dict), the directory/manifest setup it performs, and the external
commands it runs, all as functions of the temp-dir name `TEMP_DIR`. -/
structure TaskDef where
  name : String
  setup : String → List FsOp
  cmds : String → List String

def jsonModule : String := "\x7b\"type\": \"module\"\x7d"

def jsonCommonjs : String := "\x7b\"type\": \"commonjs\"\x7d"

/-- `build_esm_types` from `build.py`. -/
def buildEsmTypes : TaskDef where
  name := "build_esm_types"
  setup := fun temp =>
    [.mkdir [temp, "esm-types"] true true,
     .writeText [temp, "esm-types", "package.json"] jsonModule]
  cmds := fun temp =>
    ["tsc --outDir " ++ pathStr [temp, "esm-types"]]

/-- `build_internal_esm_types` from `build.py`. -/
def buildInternalEsmTypes : TaskDef where
  name := "build_internal_esm_types"
  setup := fun temp =>
    [.mkdir [temp, "internal-esm-types"] true true,
     .writeText [temp, "internal-esm-types", "package.json"] jsonModule]
  cmds := fun temp =>
    ["tsc --stripInternal false --outDir " ++ pathStr [temp, "internal-esm-types"]]

/-- `build_cjs_types` from `build.py`. -/
def buildCjsTypes : TaskDef where
  name := "build_cjs_types"
  setup := fun temp =>
    [.mkdir [temp, "cjs-types"] true true,
     .writeText [temp, "cjs-types", "package.json"] jsonCommonjs]
  cmds := fun temp =>
    ["tsc --outDir " ++ pathStr [temp, "cjs-types"]]

/-- `build_internal_cjs_types` from `build.py`. -/
def buildInternalCjsTypes : TaskDef where
  name := "build_internal_cjs_types"
  setup := fun temp =>
    [.mkdir [temp, "internal-cjs-types"] true true,
     .writeText [temp, "internal-cjs-types", "package.json"] jsonCommonjs]
  cmds := fun temp =>
    ["tsc --stripInternal false --outDir " ++ pathStr [temp, "internal-cjs-types"]]

/-- `build_cjs_and_esm` from `build.py`. -/
def buildCjsAndEsm : TaskDef where
  name := "build_cjs_and_esm"
  setup := fun temp =>
    [.mkdir [temp, "esm"] true true,
     .mkdir [temp, "cjs"] true true,
     .writeText [temp, "esm", "package.json"] jsonModule,
     .writeText [temp, "cjs", "package.json"] jsonCommonjs]
  cmds := fun temp =>
    ["node scripts/build.cjs esm tempDir=" ++ pathStr [temp],
     "node scripts/build.cjs cjs tempDir=" ++ pathStr [temp],
     "node scripts/node-browser.mjs tempDir=" ++ pathStr [temp]]

/-- `build_browser_script_tag` from `build.py`. -/
def buildBrowserScriptTag : TaskDef where
  name := "build_browser_script_tag"
  setup := fun _ => []
  cmds := fun temp =>
    ["node scripts/build.cjs browser-script-tag tempDir=" ++ pathStr [temp]]

/-- `build_react_script_tag` from `build.py`. -/
def buildReactScriptTag : TaskDef where
  name := "build_react_script_tag"
  setup := fun _ => []
  cmds := fun temp =>
    ["node scripts/build.cjs react-script-tag tempDir=" ++ pathStr [temp]]

/-- `build_standalone_cli` from `build.py`. -/
def buildStandaloneCli : TaskDef where
  name := "build_standalone_cli"
  setup := fun _ => []
  cmds := fun temp =>
    ["node scripts/build.cjs standalone-cli tempDir=" ++ pathStr [temp]]

/-- The eight tasks, in the order `main` submits them to the pool. -/
def tasks : List TaskDef :=
  [buildEsmTypes, buildInternalEsmTypes, buildCjsTypes, buildInternalCjsTypes,
   buildCjsAndEsm, buildBrowserScriptTag, buildReactScriptTag, buildStandaloneCli]

/-- Run a list of commands in order through `run`, stopping at the first
failure (the raised error propagates out of the task body).  Returns the
print events emitted and the final outcome. -/
def runCmdsEvents (env : String → CmdResult) :
    List String → List Event × Except BuildError Unit
  | [] => ([], .ok ())
  | c :: cs =>
    let r := run env c
    match r.result with
    | .error e => (r.printed.map Event.print, .error e)
    | .ok _ =>
      let rest := runCmdsEvents env cs
      (r.printed.map Event.print ++ rest.1, rest.2)

/-- Execute one task body against the temp dir: perform its directory and
manifest setup, then run its external commands.  Returns the emitted events
and the outcome (`error` when a command raised `CalledProcessError`). -/
def execTask (env : String → CmdResult) (temp : String) (t : TaskDef) :
    List Event × Except BuildError Unit :=
  let r := runCmdsEvents env (t.cmds temp)
  ((t.setup temp).map Event.fsOp ++ r.1, r.2)

/-- Whether a task's body raises (one of its external commands exits
non-zero). -/
def taskFailed (env : String → CmdResult) (temp : String) (t : TaskDef) : Bool :=
  match (execTask env temp t).2 with
  | .ok _ => false
  | .error _ => true

/-- Whether any of the eight registered tasks fails. -/
def someTaskFailed (env : String → CmdResult) (temp : String) : Bool :=
  tasks.any (taskFailed env temp)

/-- Python dict assignment `m[k] = v`: update in place when the key exists,
append otherwise (Python dicts preserve insertion order). -/
def dictSet (m : List (String × ℚ)) (k : String) (v : ℚ) : List (String × ℚ) :=
  if m.any (fun p => p.1 == k) then
    m.map (fun p => if p.1 == k then (k, v) else p)
  else
    m ++ [(k, v)]

/-- The effect of `log_duration`'s wrapper `timed` on the global `times`
dict: `times[func.__name__] = duration` runs only if `func()` returned
normally; when `func()` raises, the exception propagates and nothing is
recorded. -/
def logDurationStep (name : String) (dur : ℚ) (outcome : Except BuildError Unit)
    (times : List (String × ℚ)) : List (String × ℚ) :=
  match outcome with
  | .ok _ => dictSet times name dur
  | .error _ => times

/-- Result of running all submitted tasks to completion: the events they
emitted, the final `times` dict, and whether any future raised. -/
structure RunAllResult where
  events : List Event
  times : List (String × ℚ)
  failed : Bool

/-- Run the tasks to completion (the pool has more workers than tasks and
does not cancel siblings of a failed task), threading the `times` dict
through `log_duration` and collecting whether any task failed. -/
def runTasks (env : String → CmdResult) (temp : String) (dur : String → ℚ) :
    List TaskDef → List (String × ℚ) → RunAllResult
  | [], times => ⟨[], times, false⟩
  | t :: ts, times =>
    let r := execTask env temp t
    let times' := logDurationStep t.name (dur t.name) r.2 times
    let rest := runTasks env temp dur ts times'
    ⟨r.1 ++ rest.events, rest.times,
     (match r.2 with | .ok _ => false | .error _ => true) || rest.failed⟩

/-- Round a rational to the nearest integer, ties to even (the rounding of
IEEE formatting and of Python's `round`).  The fractional part `x - ⌊x⌋`
is compared with `1/2` by cross-multiplication with the (positive)
denominator, which keeps the definition kernel-computable:
`x - ⌊x⌋ < 1/2 ↔ 2*(x.num - ⌊x⌋*x.den) < x.den`. -/
def rhe (x : ℚ) : ℤ :=
  let f : ℤ := x.floor
  let twiceFrac : ℤ := 2 * (x.num - f * (x.den : ℤ))
  if twiceFrac < (x.den : ℤ) then f
  else if (x.den : ℤ) < twiceFrac then f + 1
  else if f % 2 = 0 then f else f + 1

/-- Multiply a rational by a natural, performed on the numerator (`mkRat`
renormalises), so `qscale x k = x * k`. -/
def qscale (x : ℚ) (k : ℕ) : ℚ := mkRat (x.num * k) x.den

/-- Python `round(x, 3)`. -/
def pyRound3 (x : ℚ) : ℚ := mkRat (rhe (qscale x 1000)) 1000

def pad2 (k : Nat) : String :=
  if k < 10 then "0" ++ toString k else toString k

/-- Python `format(x, "2.2f")`: fixed-point with two digits after the
decimal point (the minimum width 2 never forces padding, since the shortest
possible rendering "0.00" is already four characters wide). -/
def fmt22 (q : ℚ) : String :=
  let n : ℤ := rhe (qscale q 100)
  let sign := if n < 0 then "-" else ""
  let m := n.natAbs
  sign ++ toString (m / 100) ++ "." ++ pad2 (m % 100)

/-- `times[name]` (the default is irrelevant: the report only looks up keys
of the dict). -/
def dlookup (times : List (String × ℚ)) (n : String) : ℚ :=
  ((times.find? (fun p => p.1 == n)).map Prod.snd).getD (mkRat 0 1)

/-- One report line: `f"{round(times[name], 3):2.2f}s {name}"`. -/
def taskLine (times : List (String × ℚ)) (n : String) : String :=
  fmt22 (pyRound3 (dlookup times n)) ++ "s " ++ n

/-- The console report of `main`: the task lines for
`sorted(times.keys(), key=lambda task: times[task])` (Python's `sorted` is
a stable ascending sort, modelled by the stable `insertionSort`), followed
by `f"{time.time() - t0:2.2f}s total"`. -/
def reportLines (times : List (String × ℚ)) (total : ℚ) : List String :=
  (List.insertionSort (fun a b => dlookup times a ≤ dlookup times b)
      (times.map Prod.fst)).map (taskLine times)
    ++ [fmt22 total ++ "s total"]

/-- Result of one run of `main`: the event trace, the final `times` dict
and the process exit code. -/
structure MainResult where
  trace : List Event
  times : List (String × ℚ)
  exitCode : Nat

/-- Shallow embedding of `main()` from `build.py`.  `s1` and `s2` are the
random suffixes `str(random.random())[2:]` used for `TEMP_DIR` and
`temp_to_delete`; `dur` gives the wall-clock duration measured for each
task, `total` the elapsed time from `t0` to the report, and `distExists`
whether the previously published `dist` directory exists. -/
def pyMain (env : String → CmdResult) (s1 s2 : String) (dur : String → ℚ)
    (distExists : Bool) (total : ℚ) : MainResult :=
  let tempDir : String := "tmpDist" ++ s1
  let tempToDelete : String := "tmpDist" ++ s2
  let r := runTasks env tempDir dur tasks []
  if r.failed then
    ⟨r.events ++ [.exitProcess 1], r.times, 1⟩
  else
    let swap : List Event :=
      (if distExists then [.move ["dist"] [tempToDelete]] else [])
        ++ [.move [tempDir] ["dist"], .rmtree [tempToDelete] true]
    ⟨r.events ++ swap ++ (reportLines r.times total).map .print
        ++ [.exitProcess 0],
     r.times, 0⟩

/-! ### Basic lemmas about the command runner and the scheduler -/

theorem run_result_ok_iff (env : String → CmdResult) (c : String) :
    (run env c).result = .ok () ↔ (env c).exitCode = 0 := by
  by_cases h : (env c).exitCode = 0 <;> simp [run, h]

theorem run_printed_of_ok (env : String → CmdResult) (c : String)
    (h : (env c).exitCode = 0) : (run env c).printed = [] := by
  simp [run, h]

theorem run_printed_of_fail (env : String → CmdResult) (c : String)
    (h : ¬ (env c).exitCode = 0) :
    (run env c).printed = ["error while running " ++ c,
      calledProcessErrorMsg c (env c).exitCode, (env c).output] := by
  simp [run, h]

theorem runCmdsEvents_ok_iff (env : String → CmdResult) :
    ∀ cs : List String,
      (runCmdsEvents env cs).2 = .ok () ↔ ∀ c ∈ cs, (env c).exitCode = 0 := by
  intro cs
  induction cs with
  | nil => simp [runCmdsEvents]
  | cons c cs ih =>
    by_cases h : (env c).exitCode = 0
    · simp [runCmdsEvents, run, h, ih]
    · simp [runCmdsEvents, run, h]

theorem runCmdsEvents_events_of_ok (env : String → CmdResult) :
    ∀ cs : List String, (∀ c ∈ cs, (env c).exitCode = 0) →
      (runCmdsEvents env cs).1 = [] := by
  intro cs
  induction cs with
  | nil => simp [runCmdsEvents]
  | cons c cs ih =>
    intro h
    have hc : (env c).exitCode = 0 := h c (by simp)
    have hcs : ∀ x ∈ cs, (env x).exitCode = 0 := fun x hx => h x (by simp [hx])
    simp [runCmdsEvents, run, hc, ih hcs]

theorem runCmdsEvents_mem_print (env : String → CmdResult) :
    ∀ (cs : List String) (ev : Event), ev ∈ (runCmdsEvents env cs).1 →
      ∃ c ∈ cs, (env c).exitCode ≠ 0 ∧ ev ∈ (run env c).printed.map Event.print := by
  intro cs
  induction cs with
  | nil => simp [runCmdsEvents]
  | cons c cs ih =>
    intro ev hev
    by_cases h : (env c).exitCode = 0
    · rw [show runCmdsEvents env (c :: cs)
          = ((run env c).printed.map Event.print ++ (runCmdsEvents env cs).1,
             (runCmdsEvents env cs).2) by simp [runCmdsEvents, run, h]] at hev
      simp only [run_printed_of_ok env c h, List.map_nil, List.nil_append] at hev
      obtain ⟨d, hd, hfail, hmem⟩ := ih ev hev
      exact ⟨d, by simp [hd], hfail, hmem⟩
    · rw [show runCmdsEvents env (c :: cs)
          = ((run env c).printed.map Event.print,
             .error ⟨c, (env c).exitCode, (env c).output⟩) by
            simp [runCmdsEvents, run, h]] at hev
      exact ⟨c, by simp, h, hev⟩

theorem runCmdsEvents_error_data (env : String → CmdResult) :
    ∀ (cs : List String) (e : BuildError), (runCmdsEvents env cs).2 = .error e →
      e.cmd ∈ cs ∧ (env e.cmd).exitCode = e.returncode ∧ e.returncode ≠ 0 ∧
      e.output = (env e.cmd).output ∧
      Event.print ("error while running " ++ e.cmd) ∈ (runCmdsEvents env cs).1 ∧
      Event.print e.output ∈ (runCmdsEvents env cs).1 := by
  intro cs
  induction cs with
  | nil => simp [runCmdsEvents]
  | cons c cs ih =>
    intro e he
    by_cases h : (env c).exitCode = 0
    · rw [show runCmdsEvents env (c :: cs)
          = ((run env c).printed.map Event.print ++ (runCmdsEvents env cs).1,
             (runCmdsEvents env cs).2) by simp [runCmdsEvents, run, h]] at he ⊢
      obtain ⟨hc, hrc, hnz, hout, hp1, hp2⟩ := ih e he
      exact ⟨by simp [hc], hrc, hnz, hout, by simp [hp1], by simp [hp2]⟩
    · rw [show runCmdsEvents env (c :: cs)
          = ((run env c).printed.map Event.print,
             .error ⟨c, (env c).exitCode, (env c).output⟩) by
            simp [runCmdsEvents, run, h]] at he ⊢
      obtain rfl : e = ⟨c, (env c).exitCode, (env c).output⟩ := by
        simpa using he.symm
      refine ⟨by simp, rfl, h, rfl, ?_, ?_⟩ <;>
        simp [run_printed_of_fail env c h]

theorem execTask_event_cases (env : String → CmdResult) (temp : String)
    (t : TaskDef) (ev : Event) (hev : ev ∈ (execTask env temp t).1) :
    (∃ op ∈ t.setup temp, ev = .fsOp op) ∨
    (∃ c ∈ t.cmds temp, (env c).exitCode ≠ 0 ∧
        ev ∈ (run env c).printed.map Event.print) := by
  simp only [execTask, List.mem_append, List.mem_map] at hev
  rcases hev with ⟨op, hop, rfl⟩ | hev
  · exact .inl ⟨op, hop, rfl⟩
  · exact .inr (runCmdsEvents_mem_print env (t.cmds temp) ev hev)

theorem taskFailed_false_iff (env : String → CmdResult) (temp : String)
    (t : TaskDef) :
    taskFailed env temp t = false ↔ ∀ c ∈ t.cmds temp, (env c).exitCode = 0 := by
  rw [← runCmdsEvents_ok_iff env (t.cmds temp)]
  unfold taskFailed execTask
  cases h : (runCmdsEvents env (t.cmds temp)).2 with
  | ok u => cases u; simp
  | error e => simp

theorem runTasks_failed_eq (env : String → CmdResult) (temp : String)
    (dur : String → ℚ) :
    ∀ (ts : List TaskDef) (times : List (String × ℚ)),
      (runTasks env temp dur ts times).failed = ts.any (taskFailed env temp) := by
  intro ts
  induction ts with
  | nil => simp [runTasks]
  | cons t ts ih =>
    intro times
    simp only [runTasks, List.any_cons, ih]
    rfl

theorem runTasks_mem_events (env : String → CmdResult) (temp : String)
    (dur : String → ℚ) :
    ∀ (ts : List TaskDef) (times : List (String × ℚ)) (ev : Event),
      ev ∈ (runTasks env temp dur ts times).events ↔
        ∃ t ∈ ts, ev ∈ (execTask env temp t).1 := by
  intro ts
  induction ts with
  | nil => simp [runTasks]
  | cons t ts ih =>
    intro times ev
    simp only [runTasks, List.mem_append, ih]
    constructor
    · rintro (h | ⟨u, hu, hev⟩)
      · exact ⟨t, by simp, h⟩
      · exact ⟨u, by simp [hu], hev⟩
    · rintro ⟨u, hu, hev⟩
      rcases List.mem_cons.mp hu with rfl | hu
      · exact .inl hev
      · exact .inr ⟨u, hu, hev⟩

theorem dictSet_fresh (m : List (String × ℚ)) (k : String) (v : ℚ)
    (h : ∀ p ∈ m, p.1 ≠ k) : dictSet m k v = m ++ [(k, v)] := by
  unfold dictSet
  have : m.any (fun p => p.1 == k) = false := by
    simp only [List.any_eq_false]
    intro p hp
    simpa using h p hp
  simp [this]

theorem runTasks_times_eq (env : String → CmdResult) (temp : String)
    (dur : String → ℚ) :
    ∀ (ts : List TaskDef) (times₀ : List (String × ℚ)),
      (ts.map TaskDef.name).Nodup →
      (∀ t ∈ ts, ∀ p ∈ times₀, p.1 ≠ t.name) →
      (runTasks env temp dur ts times₀).times
        = times₀ ++ (ts.filter (fun t => !taskFailed env temp t)).map
            (fun t => (t.name, dur t.name)) := by
  intro ts
  induction ts with
  | nil => simp [runTasks]
  | cons t ts ih =>
    intro times₀ hnd hfresh
    have hh : (∀ x ∈ ts, ¬ x.name = t.name) ∧ (ts.map TaskDef.name).Nodup := by
      simpa using hnd
    have hnd' := hh.2
    have htns : ∀ u ∈ ts, t.name ≠ u.name := fun u hu e => hh.1 u hu e.symm
    cases h : (execTask env temp t).2 with
    | ok u =>
      have hfail : taskFailed env temp t = false := by
        unfold taskFailed; rw [h]
      have hset : logDurationStep t.name (dur t.name) (Except.ok u) times₀
          = times₀ ++ [(t.name, dur t.name)] :=
        dictSet_fresh times₀ t.name (dur t.name)
          (fun p hp => hfresh t (by simp) p hp)
      simp only [runTasks, h, hset]
      rw [ih (times₀ ++ [(t.name, dur t.name)]) hnd' ?_]
      · simp [hfail, List.filter_cons, List.append_assoc]
      · intro u hu p hp
        rcases List.mem_append.mp hp with hp | hp
        · exact hfresh u (by simp [hu]) p hp
        · simp only [List.mem_singleton] at hp
          subst hp
          exact htns u hu
    | error e =>
      have hfail : taskFailed env temp t = true := by
        unfold taskFailed; rw [h]
      have hset : logDurationStep t.name (dur t.name) (Except.error e) times₀
          = times₀ := rfl
      simp only [runTasks, h, hset]
      rw [ih times₀ hnd' (fun u hu p hp => hfresh u (by simp [hu]) p hp)]
      simp [hfail, List.filter_cons]

theorem tasks_names_nodup : (tasks.map TaskDef.name).Nodup := by decide

theorem tasks_setup_head :
    ∀ t ∈ tasks, ∀ (temp : String) (op : FsOp), op ∈ t.setup temp →
      ∃ rest, fsPath op = temp :: rest := by
  intro t ht temp op hop
  simp only [tasks, List.mem_cons, List.not_mem_nil, or_false] at ht
  rcases ht with rfl | rfl | rfl | rfl | rfl | rfl | rfl | rfl <;>
    simp only [buildEsmTypes, buildInternalEsmTypes, buildCjsTypes,
      buildInternalCjsTypes, buildCjsAndEsm, buildBrowserScriptTag,
      buildReactScriptTag, buildStandaloneCli, List.mem_cons,
      List.not_mem_nil, or_false] at hop <;>
    rcases hop with rfl | hop <;>
      first
        | exact ⟨_, rfl⟩
        | (rcases hop with rfl | hop <;>
            first
              | exact ⟨_, rfl⟩
              | (rcases hop with rfl | rfl <;> exact ⟨_, rfl⟩))

theorem tmpDist_append_ne_dist (s : String) : "tmpDist" ++ s ≠ "dist" := by
  intro h
  have hlen := congrArg String.length h
  rw [String.length_append] at hlen
  have h7 : ("tmpDist" : String).length = 7 := rfl
  have h4 : ("dist" : String).length = 4 := rfl
  rw [h7, h4] at hlen
  omega

theorem tmpDist_path_ne_dist (s : String) :
    (["tmpDist" ++ s] : PyPath) ≠ ["dist"] := by
  intro h
  exact tmpDist_append_ne_dist s (by simpa using h)

/-! ### A directory-level filesystem model for the task setup operations -/

/-- The parent directory of a path, `none` for a single-component path
(whose parent is the working directory, which always exists). -/
def parentOf (p : PyPath) : Option PyPath :=
  match p with
  | [] => none
  | [_] => none
  | _ => some p.dropLast

/-- All the non-empty prefixes of a path: the chain of directories
`Path.mkdir(parents=True)` creates when missing. -/
def pathPrefixes (p : PyPath) : List PyPath :=
  (List.range p.length).map (fun i => p.take (i + 1))

/-- Semantics of the task setup operations over a set of existing
directories (`fs`): `Path.mkdir` raises `FileExistsError` when the target
exists and `exist_ok=False`, creates missing parents when `parents=True`,
and raises `FileNotFoundError` when the parent is missing and
`parents=False`; `Path.write_text` creates or truncates the file (the
directory set is unchanged) and needs the parent directory to exist. -/
def applyFsOp (fs : List PyPath) : FsOp → Except String (List PyPath)
  | .mkdir p parents existOk =>
    if fs.contains p then
      if existOk then .ok fs
      else .error ("FileExistsError: " ++ pathStr p)
    else if parents then
      .ok (fs ++ (pathPrefixes p).filter (fun q => !fs.contains q))
    else
      match parentOf p with
      | none => .ok (fs ++ [p])
      | some q =>
        if fs.contains q then .ok (fs ++ [p])
        else .error ("FileNotFoundError: " ++ pathStr q)
  | .writeText p _ =>
    match parentOf p with
    | none => .ok fs
    | some q =>
      if fs.contains q then .ok fs
      else .error ("FileNotFoundError: " ++ pathStr q)

/-- The lines printed during a run, in order. -/
def tracePrints (trace : List Event) : List String :=
  trace.filterMap (fun e => match e with | .print l => some l | _ => none)

def pad3 (k : Nat) : String :=
  if k < 10 then "00" ++ toString k
  else if k < 100 then "0" ++ toString k
  else toString k

/-- Fixed-point rendering with three digits after the decimal point. -/
def fmt3 (q : ℚ) : String :=
  let n : ℤ := rhe (qscale q 1000)
  let sign := if n < 0 then "-" else ""
  let m := n.natAbs
  sign ++ toString (m / 1000) ++ "." ++ pad3 (m % 1000)

/-- Follows the spec's words, for comparison with `taskLine`: a report line
showing the task's elapsed seconds rounded to three decimals
(`"<seconds>s <task-name>"`). -/
def specTaskLine3 (name : String) (d : ℚ) : String :=
  fmt3 (pyRound3 d) ++ "s " ++ name

/-! ### Shape of the `main` trace on the failure and success paths -/

theorem someTaskFailed_false_iff (env : String → CmdResult) (temp : String) :
    someTaskFailed env temp = false ↔
      ∀ t ∈ tasks, ∀ c ∈ t.cmds temp, (env c).exitCode = 0 := by
  unfold someTaskFailed
  rw [List.any_eq_false]
  constructor
  · intro h t ht
    exact (taskFailed_false_iff env temp t).mp (by simpa using h t ht)
  · intro h t ht
    simp [(taskFailed_false_iff env temp t).mpr (h t ht)]

theorem someTaskFailed_true_iff (env : String → CmdResult) (temp : String) :
    someTaskFailed env temp = true ↔
      ∃ t ∈ tasks, taskFailed env temp t = true := by
  unfold someTaskFailed
  rw [List.any_eq_true]

theorem pyMain_failure_form (env : String → CmdResult) (s1 s2 : String)
    (dur : String → ℚ) (dex : Bool) (tot : ℚ)
    (h : someTaskFailed env ("tmpDist" ++ s1) = true) :
    pyMain env s1 s2 dur dex tot
      = ⟨(runTasks env ("tmpDist" ++ s1) dur tasks []).events ++ [.exitProcess 1],
         (runTasks env ("tmpDist" ++ s1) dur tasks []).times, 1⟩ := by
  unfold someTaskFailed at h
  unfold pyMain
  dsimp only
  rw [runTasks_failed_eq, h]
  rfl

theorem pyMain_success_form (env : String → CmdResult) (s1 s2 : String)
    (dur : String → ℚ) (dex : Bool) (tot : ℚ)
    (h : someTaskFailed env ("tmpDist" ++ s1) = false) :
    pyMain env s1 s2 dur dex tot
      = ⟨(runTasks env ("tmpDist" ++ s1) dur tasks []).events
           ++ ((if dex then [.move ["dist"] ["tmpDist" ++ s2]] else [])
                ++ [.move ["tmpDist" ++ s1] ["dist"], .rmtree ["tmpDist" ++ s2] true])
           ++ (reportLines (runTasks env ("tmpDist" ++ s1) dur tasks []).times tot).map .print
           ++ [.exitProcess 0],
         (runTasks env ("tmpDist" ++ s1) dur tasks []).times, 0⟩ := by
  unfold someTaskFailed at h
  unfold pyMain
  dsimp only
  rw [runTasks_failed_eq, h]
  simp [List.append_assoc]

theorem events_of_no_failure (env : String → CmdResult) (temp : String)
    (dur : String → ℚ) (h : someTaskFailed env temp = false) :
    ∀ ev ∈ (runTasks env temp dur tasks []).events,
      ∃ op, ev = .fsOp op ∧ ∃ t ∈ tasks, op ∈ t.setup temp := by
  intro ev hev
  obtain ⟨t, ht, hevt⟩ := (runTasks_mem_events env temp dur tasks [] ev).mp hev
  rcases execTask_event_cases env temp t ev hevt with ⟨op, hop, rfl⟩ | ⟨c, hc, hfail, _⟩
  · exact ⟨op, rfl, t, ht, hop⟩
  · exact absurd ((someTaskFailed_false_iff env temp).mp h t ht c hc) hfail

theorem events_cases (env : String → CmdResult) (temp : String)
    (dur : String → ℚ) :
    ∀ ev ∈ (runTasks env temp dur tasks []).events,
      (∃ op, ev = .fsOp op ∧ ∃ t ∈ tasks, op ∈ t.setup temp) ∨
      (∃ l, ev = .print l ∧ ∃ c, (env c).exitCode ≠ 0 ∧ l ∈ (run env c).printed) := by
  intro ev hev
  obtain ⟨t, ht, hevt⟩ := (runTasks_mem_events env temp dur tasks [] ev).mp hev
  rcases execTask_event_cases env temp t ev hevt with ⟨op, hop, rfl⟩ | ⟨c, _, hfail, hmem⟩
  · exact .inl ⟨op, rfl, t, ht, hop⟩
  · obtain ⟨l, hl, rfl⟩ := List.mem_map.mp hmem
    exact .inr ⟨l, rfl, c, hfail, hl⟩

/-! ### Concrete environments used as witnesses and counterexamples -/

/-- An environment in which every external command succeeds silently. -/
def envAllOk : String → CmdResult := fun _ => ⟨0, ""⟩

/-- An environment in which the `tsc` invocation of `build_esm_types`
(against the workspace `tmpDist7`) exits with status 2 and output `boom`;
every other command succeeds. -/
def envEsmFails : String → CmdResult := fun c =>
  if c = "tsc --outDir tmpDist7/esm-types" then ⟨2, "boom"⟩ else ⟨0, ""⟩

/-- An environment in which the bundler invocation of `build_standalone_cli`
(against the workspace `tmpDist`) exits with status 3; every other command
succeeds. -/
def envCliFails : String → CmdResult := fun c =>
  if c = "node scripts/build.cjs standalone-cli tempDir=tmpDist" then ⟨3, "cli failed"⟩
  else ⟨0, ""⟩

/-! ### Claim C9 -/

/-- Claim C9: every directory creation performed by a registered Task uses
`exist_ok=True`, so it is idempotent: when the target directory already
exists in the workspace state, the creation succeeds without error and
leaves the set of directories unchanged (create-if-absent, never fail on
"already exists"). -/
theorem c9_task_mkdir_idempotent (t : TaskDef) (ht : t ∈ tasks) (temp : String)
    (p : PyPath) (pa eo : Bool) (hop : FsOp.mkdir p pa eo ∈ t.setup temp)
    (fs : List PyPath) (hfs : fs.contains p = true) :
    eo = true ∧ applyFsOp fs (.mkdir p pa eo) = .ok fs := by
  have heo : eo = true := by
    simp only [tasks, List.mem_cons, List.not_mem_nil, or_false] at ht
    rcases ht with rfl | rfl | rfl | rfl | rfl | rfl | rfl | rfl <;>
      simp only [buildEsmTypes, buildInternalEsmTypes, buildCjsTypes,
        buildInternalCjsTypes, buildCjsAndEsm, buildBrowserScriptTag,
        buildReactScriptTag, buildStandaloneCli] at hop <;>
      simp at hop <;> tauto
  subst heo
  refine ⟨rfl, ?_⟩
  have hmem : p ∈ fs := by simpa using hfs
  simp [applyFsOp, hmem]

/-- Witness for C9 at the `esm-types` directory of `build_esm_types`, in a
workspace state where that directory already exists. -/
theorem c9_witness :
    FsOp.mkdir ["tmpDist1", "esm-types"] true true ∈ buildEsmTypes.setup "tmpDist1"
    ∧ ([["tmpDist1", "esm-types"]] : List PyPath).contains ["tmpDist1", "esm-types"] = true
    ∧ applyFsOp [["tmpDist1", "esm-types"]] (.mkdir ["tmpDist1", "esm-types"] true true)
        = .ok [["tmpDist1", "esm-types"]] := by
  refine ⟨by decide, by decide, ?_⟩
  exact (c9_task_mkdir_idempotent buildEsmTypes
    (by unfold tasks; exact List.mem_cons_self _ _) "tmpDist1"
    ["tmpDist1", "esm-types"] true true (by decide)
    [["tmpDist1", "esm-types"]] (by decide)).2

/-! ### Claim C3 -/

/-- Claim C3 (amended): when the child process exits non-zero, `run` raises
a structured error carrying the command text, exit status and combined
captured output — but, contrary to the claim's "does not print", `run`
itself first prints the failure: the command, the `CalledProcessError`
message, and the captured output. -/
theorem c3_run_error_reporting (env : String → CmdResult) (cmd : String)
    (h : (env cmd).exitCode ≠ 0) :
    (run env cmd).result = .error ⟨cmd, (env cmd).exitCode, (env cmd).output⟩
    ∧ (run env cmd).printed = ["error while running " ++ cmd,
        calledProcessErrorMsg cmd (env cmd).exitCode, (env cmd).output]
    ∧ (run env cmd).printed ≠ [] := by
  refine ⟨?_, run_printed_of_fail env cmd h, ?_⟩ <;> simp [run, h]

/-- Counterexample to C3 as stated: on a command exiting with status 2,
`run` does print the error itself (three lines), rather than leaving
reporting to the caller. -/
theorem c3_counterexample :
    (run envEsmFails "tsc --outDir tmpDist7/esm-types").printed
      = ["error while running tsc --outDir tmpDist7/esm-types",
         "Command 'tsc --outDir tmpDist7/esm-types' returned non-zero exit status 2.",
         "boom"]
    ∧ (run envEsmFails "tsc --outDir tmpDist7/esm-types").printed ≠ [] := by
  constructor <;> decide

/-- Witness for C3 (amended) on a concrete failing command. -/
theorem c3_witness :
    (envEsmFails "tsc --outDir tmpDist7/esm-types").exitCode ≠ 0
    ∧ (run envEsmFails "tsc --outDir tmpDist7/esm-types").result
        = .error ⟨"tsc --outDir tmpDist7/esm-types", 2, "boom"⟩ :=
  ⟨by decide,
   (c3_run_error_reporting envEsmFails "tsc --outDir tmpDist7/esm-types" (by decide)).1⟩

/-! ### Claim C2 -/

/-- Claim C2 (amended): a completing Task records its `(name, duration)`
pair into the process-wide `times` dict only when its action succeeds; when
a command of the Task fails, the exception propagates out of `timed` before
the assignment `times[func.__name__] = duration`, so nothing is recorded
for a failed task.  A task succeeds exactly when all its external commands
exit with status 0. -/
theorem c2_record_iff_success (env : String → CmdResult) (temp : String)
    (t : TaskDef) (_ht : t ∈ tasks) (times : List (String × ℚ)) (d : ℚ) :
    logDurationStep t.name d (execTask env temp t).2 times
      = (if taskFailed env temp t then times else dictSet times t.name d)
    ∧ (taskFailed env temp t = false ↔ ∀ c ∈ t.cmds temp, (env c).exitCode = 0) := by
  constructor
  · unfold taskFailed logDurationStep
    cases (execTask env temp t).2 <;> simp
  · exact taskFailed_false_iff env temp t

/-- Counterexample to C2 as stated: `build_esm_types` completes (with a
failing `tsc`), yet the Duration Recorder stays empty — the timing of a
failed task is not preserved. -/
theorem c2_counterexample :
    taskFailed envEsmFails "tmpDist7" buildEsmTypes = true
    ∧ logDurationStep buildEsmTypes.name (mkRat 1 1)
        (execTask envEsmFails "tmpDist7" buildEsmTypes).2 [] = [] := by
  constructor <;> decide

/-- Witness for C2 (amended) on `build_esm_types` with every command
succeeding. -/
theorem c2_witness :
    buildEsmTypes ∈ tasks
    ∧ logDurationStep buildEsmTypes.name (mkRat 1 1)
        (execTask envAllOk "tmpDist" buildEsmTypes).2 []
      = (if taskFailed envAllOk "tmpDist" buildEsmTypes then []
         else dictSet [] buildEsmTypes.name (mkRat 1 1)) :=
  ⟨by unfold tasks; exact List.mem_cons_self _ _,
   (c2_record_iff_success envAllOk "tmpDist" buildEsmTypes
     (by unfold tasks; exact List.mem_cons_self _ _) [] (mkRat 1 1)).1⟩

/-! ### Claim C1 -/

/-- Claim C1: when at least one Task's external command exits non-zero,
`main` exits with code 1 before performing any move or delete: the trace
contains no `shutil.move` and no `shutil.rmtree` event at all, and every
filesystem write of the run stays inside the `tmpDist`-prefixed workspace —
in particular the previously published `dist` directory is never touched. -/
theorem c1_dist_untouched_on_failure (env : String → CmdResult) (s1 s2 : String)
    (dur : String → ℚ) (dex : Bool) (tot : ℚ)
    (h : someTaskFailed env ("tmpDist" ++ s1) = true) :
    (pyMain env s1 s2 dur dex tot).exitCode = 1
    ∧ (∀ ev ∈ (pyMain env s1 s2 dur dex tot).trace, ev.isMove = false)
    ∧ (∀ ev ∈ (pyMain env s1 s2 dur dex tot).trace, ev.isRmtree = false)
    ∧ (∀ op : FsOp, Event.fsOp op ∈ (pyMain env s1 s2 dur dex tot).trace →
        ∃ rest, fsPath op = ("tmpDist" ++ s1) :: rest
          ∧ ¬ (["dist"] <+: fsPath op)) := by
  rw [pyMain_failure_form env s1 s2 dur dex tot h]
  refine ⟨rfl, ?_, ?_, ?_⟩
  · intro ev hev
    rcases List.mem_append.mp hev with hev | hev
    · rcases events_cases env _ dur ev hev with ⟨op, rfl, -⟩ | ⟨l, rfl, -⟩ <;> rfl
    · simp only [List.mem_singleton] at hev
      subst hev; rfl
  · intro ev hev
    rcases List.mem_append.mp hev with hev | hev
    · rcases events_cases env _ dur ev hev with ⟨op, rfl, -⟩ | ⟨l, rfl, -⟩ <;> rfl
    · simp only [List.mem_singleton] at hev
      subst hev; rfl
  · intro op hop
    rcases List.mem_append.mp hop with hop | hop
    · rcases events_cases env _ dur _ hop with ⟨op2, heq, t, ht, hsetup⟩ | ⟨l, heq, -⟩
      · obtain rfl : op = op2 := by injection heq
        obtain ⟨rest, hrest⟩ := tasks_setup_head t ht _ op hsetup
        refine ⟨rest, hrest, ?_⟩
        intro hpre
        rw [hrest] at hpre
        exact tmpDist_append_ne_dist s1 (List.cons_prefix_cons.mp hpre).1.symm
      · exact absurd heq (by simp)
    · simp at hop

/-- Witness for C1: a run whose `build_esm_types` task fails. -/
theorem c1_witness :
    someTaskFailed envEsmFails ("tmpDist" ++ "7") = true
    ∧ ((pyMain envEsmFails "7" "8" (fun _ => mkRat 1 1) true (mkRat 5 1)).exitCode = 1
    ∧ (∀ ev ∈ (pyMain envEsmFails "7" "8" (fun _ => mkRat 1 1) true (mkRat 5 1)).trace,
        ev.isMove = false)
    ∧ (∀ ev ∈ (pyMain envEsmFails "7" "8" (fun _ => mkRat 1 1) true (mkRat 5 1)).trace,
        ev.isRmtree = false)
    ∧ (∀ op : FsOp,
        Event.fsOp op ∈ (pyMain envEsmFails "7" "8" (fun _ => mkRat 1 1) true (mkRat 5 1)).trace →
        ∃ rest, fsPath op = ("tmpDist" ++ "7") :: rest
          ∧ ¬ (["dist"] <+: fsPath op))) :=
  ⟨by decide,
   c1_dist_untouched_on_failure envEsmFails "7" "8" (fun _ => mkRat 1 1) true
     (mkRat 5 1) (by decide)⟩

/-! ### Claim C7 -/

/-- Claim C7 (amended): when at least one Task fails, the run exits with
code 1 and nothing is removed or moved at all — in particular the
workspace, together with the outputs the succeeding Tasks wrote into it, is
left on disk under its `tmpDist`-prefixed name (it is NOT removed), and no
output is ever moved into the published directory.  Every directory and
manifest a task set up is present in the trace and lies inside the
workspace. -/
theorem c7_workspace_left_on_failure (env : String → CmdResult) (s1 s2 : String)
    (dur : String → ℚ) (dex : Bool) (tot : ℚ)
    (h : someTaskFailed env ("tmpDist" ++ s1) = true) :
    (pyMain env s1 s2 dur dex tot).exitCode = 1
    ∧ (∀ ev ∈ (pyMain env s1 s2 dur dex tot).trace, ev.isRmtree = false)
    ∧ (∀ ev ∈ (pyMain env s1 s2 dur dex tot).trace, ev.isMove = false)
    ∧ (∀ t ∈ tasks, ∀ op ∈ t.setup ("tmpDist" ++ s1),
        Event.fsOp op ∈ (pyMain env s1 s2 dur dex tot).trace
        ∧ ∃ rest, fsPath op = ("tmpDist" ++ s1) :: rest) := by
  rw [pyMain_failure_form env s1 s2 dur dex tot h]
  refine ⟨rfl, ?_, ?_, ?_⟩
  · intro ev hev
    rcases List.mem_append.mp hev with hev | hev
    · rcases events_cases env _ dur ev hev with ⟨op, rfl, -⟩ | ⟨l, rfl, -⟩ <;> rfl
    · simp only [List.mem_singleton] at hev
      subst hev; rfl
  · intro ev hev
    rcases List.mem_append.mp hev with hev | hev
    · rcases events_cases env _ dur ev hev with ⟨op, rfl, -⟩ | ⟨l, rfl, -⟩ <;> rfl
    · simp only [List.mem_singleton] at hev
      subst hev; rfl
  · intro t ht op hop
    constructor
    · apply List.mem_append_left
      apply (runTasks_mem_events env ("tmpDist" ++ s1) dur tasks [] _).mpr
      refine ⟨t, ht, ?_⟩
      unfold execTask
      exact List.mem_append_left _ (List.mem_map_of_mem Event.fsOp hop)
    · exact tasks_setup_head t ht _ op hop

/-- Counterexample to C7 as stated: with `build_esm_types` failing, the
workspace `tmpDist7` is populated by the other tasks and then left on disk:
the trace removes nothing (no `rmtree`, no `move`), so the succeeding
Tasks' outputs survive outside the published directory instead of being
discarded with the workspace. -/
theorem c7_counterexample :
    (pyMain envEsmFails "7" "8" (fun _ => mkRat 1 1) true (mkRat 5 1)).exitCode = 1
    ∧ Event.fsOp (.mkdir ["tmpDist7", "cjs-types"] true true)
        ∈ (pyMain envEsmFails "7" "8" (fun _ => mkRat 1 1) true (mkRat 5 1)).trace
    ∧ (∀ ev ∈ (pyMain envEsmFails "7" "8" (fun _ => mkRat 1 1) true (mkRat 5 1)).trace,
        ev.isRmtree = false ∧ ev.isMove = false) := by
  refine ⟨by decide, by decide, by decide⟩

/-- Witness for C7 (amended): the same failing run, through the theorem. -/
theorem c7_witness :
    someTaskFailed envEsmFails ("tmpDist" ++ "7") = true
    ∧ ((pyMain envEsmFails "7" "8" (fun _ => mkRat 2 1) false (mkRat 9 1)).exitCode = 1
    ∧ (∀ ev ∈ (pyMain envEsmFails "7" "8" (fun _ => mkRat 2 1) false (mkRat 9 1)).trace,
        ev.isRmtree = false)
    ∧ (∀ ev ∈ (pyMain envEsmFails "7" "8" (fun _ => mkRat 2 1) false (mkRat 9 1)).trace,
        ev.isMove = false)
    ∧ (∀ t ∈ tasks, ∀ op ∈ t.setup ("tmpDist" ++ "7"),
        Event.fsOp op ∈ (pyMain envEsmFails "7" "8" (fun _ => mkRat 2 1) false (mkRat 9 1)).trace
        ∧ ∃ rest, fsPath op = ("tmpDist" ++ "7") :: rest)) :=
  ⟨by decide,
   c7_workspace_left_on_failure envEsmFails "7" "8" (fun _ => mkRat 2 1) false
     (mkRat 9 1) (by decide)⟩

/-! ### Claim C5 -/

/-- Claim C5: the process exit code is 0 exactly when every build Task
succeeds.  When some Task fails, the exit code is 1, the failing external
command and its captured output have been printed, and nothing else is ever
printed on the failure path (in particular no stack trace: every printed
line is one of the three error-report lines of some failing `run` call). -/
theorem c5_exit_codes (env : String → CmdResult) (s1 s2 : String)
    (dur : String → ℚ) (dex : Bool) (tot : ℚ) :
    ((pyMain env s1 s2 dur dex tot).exitCode = 0
        ↔ someTaskFailed env ("tmpDist" ++ s1) = false)
    ∧ (someTaskFailed env ("tmpDist" ++ s1) = true →
        (pyMain env s1 s2 dur dex tot).exitCode = 1
        ∧ (∃ c, (env c).exitCode ≠ 0
            ∧ Event.print ("error while running " ++ c)
                ∈ (pyMain env s1 s2 dur dex tot).trace
            ∧ Event.print ((env c).output) ∈ (pyMain env s1 s2 dur dex tot).trace)
        ∧ (∀ l, Event.print l ∈ (pyMain env s1 s2 dur dex tot).trace →
            ∃ c, (env c).exitCode ≠ 0 ∧ l ∈ (run env c).printed)) := by
  constructor
  · cases hb : someTaskFailed env ("tmpDist" ++ s1) with
    | true => rw [pyMain_failure_form env s1 s2 dur dex tot hb]; simp
    | false => rw [pyMain_success_form env s1 s2 dur dex tot hb]; simp
  · intro h
    rw [pyMain_failure_form env s1 s2 dur dex tot h]
    refine ⟨rfl, ?_, ?_⟩
    · obtain ⟨t, ht, htf⟩ := (someTaskFailed_true_iff env _).mp h
      obtain ⟨e, he⟩ : ∃ e, (execTask env ("tmpDist" ++ s1) t).2 = .error e := by
        unfold taskFailed at htf
        cases h2 : (execTask env ("tmpDist" ++ s1) t).2 with
        | ok u => rw [h2] at htf; exact absurd htf (by simp)
        | error e => exact ⟨e, rfl⟩
      have he' : (runCmdsEvents env (t.cmds ("tmpDist" ++ s1))).2 = .error e := he
      obtain ⟨-, hrc, hnz, hout, hp1, hp2⟩ :=
        runCmdsEvents_error_data env (t.cmds ("tmpDist" ++ s1)) e he'
      have hsub : ∀ ev ∈ (runCmdsEvents env (t.cmds ("tmpDist" ++ s1))).1,
          ev ∈ (runTasks env ("tmpDist" ++ s1) dur tasks []).events
            ++ [Event.exitProcess 1] := by
        intro ev hev
        apply List.mem_append_left
        apply (runTasks_mem_events env ("tmpDist" ++ s1) dur tasks [] ev).mpr
        exact ⟨t, ht, by unfold execTask; exact List.mem_append_right _ hev⟩
      refine ⟨e.cmd, by rw [hrc]; exact hnz, hsub _ hp1, ?_⟩
      rw [← hout]
      exact hsub _ hp2
    · intro l hl
      rcases List.mem_append.mp hl with hl | hl
      · rcases events_cases env _ dur _ hl with ⟨op, heq, -⟩ | ⟨l2, heq, c, hc, hcl⟩
        · exact absurd heq (by simp)
        · obtain rfl : l = l2 := by injection heq
          exact ⟨c, hc, hcl⟩
      · simp at hl

/-- Witness for C5 on a run whose `build_esm_types` task fails with status
2 and output `boom`. -/
theorem c5_witness :
    someTaskFailed envEsmFails ("tmpDist" ++ "7") = true
    ∧ (pyMain envEsmFails "7" "8" (fun _ => mkRat 1 1) true (mkRat 5 1)).exitCode = 1
    ∧ Event.print ("error while running " ++ "tsc --outDir tmpDist7/esm-types")
        ∈ (pyMain envEsmFails "7" "8" (fun _ => mkRat 1 1) true (mkRat 5 1)).trace := by
  have h := (c5_exit_codes envEsmFails "7" "8" (fun _ => mkRat 1 1) true
    (mkRat 5 1)).2 (by decide)
  exact ⟨by decide, h.1, by decide⟩

/-- Decomposition of the trace of a failed run: every event is either a
task event or the final exit. -/
theorem failure_trace_cases (env : String → CmdResult) (s1 s2 : String)
    (dur : String → ℚ) (dex : Bool) (tot : ℚ)
    (h : someTaskFailed env ("tmpDist" ++ s1) = true) (ev : Event)
    (hev : ev ∈ (pyMain env s1 s2 dur dex tot).trace) :
    ev ∈ (runTasks env ("tmpDist" ++ s1) dur tasks []).events
    ∨ ev = .exitProcess 1 := by
  rw [pyMain_failure_form env s1 s2 dur dex tot h] at hev
  rcases List.mem_append.mp hev with h1 | h1
  · exact .inl h1
  · simp only [List.mem_singleton] at h1
    exact .inr h1

/-- Decomposition of the trace of a successful run: every event is a task
event, one of the publish-swap events, a report line, or the final exit. -/
theorem success_trace_cases (env : String → CmdResult) (s1 s2 : String)
    (dur : String → ℚ) (dex : Bool) (tot : ℚ)
    (h : someTaskFailed env ("tmpDist" ++ s1) = false) (ev : Event)
    (hev : ev ∈ (pyMain env s1 s2 dur dex tot).trace) :
    ev ∈ (runTasks env ("tmpDist" ++ s1) dur tasks []).events
    ∨ (dex = true ∧ ev = .move ["dist"] ["tmpDist" ++ s2])
    ∨ ev = .move ["tmpDist" ++ s1] ["dist"]
    ∨ ev = .rmtree ["tmpDist" ++ s2] true
    ∨ (∃ l ∈ reportLines (runTasks env ("tmpDist" ++ s1) dur tasks []).times tot,
        ev = .print l)
    ∨ ev = .exitProcess 0 := by
  rw [pyMain_success_form env s1 s2 dur dex tot h] at hev
  rcases List.mem_append.mp hev with hrest | hexit
  · rcases List.mem_append.mp hrest with hrest2 | hmap
    · rcases List.mem_append.mp hrest2 with h1 | hB
      · exact .inl h1
      rcases List.mem_append.mp hB with hif | hlist
      · cases dex with
        | false => simp at hif
        | true =>
          simp at hif
          exact .inr (.inl ⟨rfl, hif⟩)
      · simp only [List.mem_cons, List.not_mem_nil, or_false] at hlist
        rcases hlist with h2 | h2
        · exact .inr (.inr (.inl h2))
        · exact .inr (.inr (.inr (.inl h2)))
    · obtain ⟨l, hl, rfl⟩ := List.mem_map.mp hmap
      exact .inr (.inr (.inr (.inr (.inl ⟨l, hl, rfl⟩))))
  · simp only [List.mem_singleton] at hexit
    exact .inr (.inr (.inr (.inr (.inr hexit))))

/-! ### Claim C6 -/

/-- Claim C6: on a fully successful run with no previously published `dist`
directory (first-ever build), publish still succeeds: the missing old
directory is skipped without an error (`previousOutputPreserved = false`:
nothing is ever moved out of `dist`), the workspace is still moved into
place as `dist`, and the process exits with code 0. -/
theorem c6_first_build_publishes (env : String → CmdResult) (s1 s2 : String)
    (dur : String → ℚ) (tot : ℚ)
    (h : someTaskFailed env ("tmpDist" ++ s1) = false) :
    (pyMain env s1 s2 dur false tot).exitCode = 0
    ∧ Event.move ["tmpDist" ++ s1] ["dist"] ∈ (pyMain env s1 s2 dur false tot).trace
    ∧ (∀ b : PyPath, Event.move ["dist"] b ∉ (pyMain env s1 s2 dur false tot).trace) := by
  refine ⟨?_, ?_, ?_⟩
  · rw [pyMain_success_form env s1 s2 dur false tot h]
  · rw [pyMain_success_form env s1 s2 dur false tot h]
    show Event.move ["tmpDist" ++ s1] ["dist"] ∈ _ ++ _
    apply List.mem_append_left
    apply List.mem_append_left
    apply List.mem_append_right
    apply List.mem_append_right
    exact List.mem_cons_self _ _
  · intro b hb
    rcases success_trace_cases env s1 s2 dur false tot h _ hb with
      h1 | ⟨hdex, -⟩ | h1 | h1 | ⟨l, -, h1⟩ | h1
    · rcases events_cases env _ dur _ h1 with ⟨op, heq, -⟩ | ⟨l, heq, -⟩ <;>
        exact absurd heq (by simp)
    · exact absurd hdex (by simp)
    · injection h1 with h2 h3
      exact tmpDist_path_ne_dist s1 h2.symm
    · exact absurd h1 (by simp)
    · exact absurd h1 (by simp)
    · exact absurd h1 (by simp)

/-- Witness for C6: a fully successful first-ever build. -/
theorem c6_witness :
    someTaskFailed envAllOk ("tmpDist" ++ "") = false
    ∧ ((pyMain envAllOk "" "0" (fun _ => mkRat 1 1) false (mkRat 5 1)).exitCode = 0
    ∧ Event.move ["tmpDist" ++ ""] ["dist"]
        ∈ (pyMain envAllOk "" "0" (fun _ => mkRat 1 1) false (mkRat 5 1)).trace
    ∧ (∀ b : PyPath, Event.move ["dist"] b
        ∉ (pyMain envAllOk "" "0" (fun _ => mkRat 1 1) false (mkRat 5 1)).trace)) :=
  ⟨by decide,
   c6_first_build_publishes envAllOk "" "0" (fun _ => mkRat 1 1) (mkRat 5 1) (by decide)⟩

/-! ### Claim C10 -/

/-- Claim C10: both generated temporary directory names begin with the
prefix `tmpDist` (followed by the random suffix, modelled as an arbitrary
string), so neither can equal the fixed published name `dist`; consequently
in every run each `shutil.move` of the publish swap has distinct source and
destination, and the only directory ever passed to `shutil.rmtree` is a
`tmpDist`-prefixed one — `dist` itself is never deleted, only replaced by a
rename. -/
theorem c10_temp_names_safe (env : String → CmdResult) (s1 s2 : String)
    (dur : String → ℚ) (dex : Bool) (tot : ℚ) :
    ("tmpDist" : String).data.isPrefixOf ("tmpDist" ++ s1).data = true
    ∧ ("tmpDist" : String).data.isPrefixOf ("tmpDist" ++ s2).data = true
    ∧ ("tmpDist" ++ s1) ≠ "dist" ∧ ("tmpDist" ++ s2) ≠ "dist"
    ∧ (∀ a b : PyPath, Event.move a b ∈ (pyMain env s1 s2 dur dex tot).trace → a ≠ b)
    ∧ (∀ (p : PyPath) (i : Bool),
        Event.rmtree p i ∈ (pyMain env s1 s2 dur dex tot).trace →
          (∃ s, p = ["tmpDist" ++ s]) ∧ p ≠ ["dist"]) := by
  refine ⟨?_, ?_, tmpDist_append_ne_dist s1, tmpDist_append_ne_dist s2, ?_, ?_⟩
  · rw [ List.isPrefixOf_iff_prefix, String.data_append]
    exact List.prefix_append _ _
  · rw [ List.isPrefixOf_iff_prefix, String.data_append]
    exact List.prefix_append _ _
  · intro a b hab
    cases hb : someTaskFailed env ("tmpDist" ++ s1) with
    | true =>
      rcases failure_trace_cases env s1 s2 dur dex tot hb _ hab with h1 | h1
      · rcases events_cases env _ dur _ h1 with ⟨op, heq, -⟩ | ⟨l, heq, -⟩ <;>
          exact absurd heq (by simp)
      · exact absurd h1 (by simp)
    | false =>
      rcases success_trace_cases env s1 s2 dur dex tot hb _ hab with
        h1 | ⟨-, h1⟩ | h1 | h1 | ⟨l, -, h1⟩ | h1
      · rcases events_cases env _ dur _ h1 with ⟨op, heq, -⟩ | ⟨l, heq, -⟩ <;>
          exact absurd heq (by simp)
      · injection h1 with h2 h3
        subst h2; subst h3
        exact fun hcon => tmpDist_path_ne_dist s2 hcon.symm
      · injection h1 with h2 h3
        subst h2; subst h3
        exact tmpDist_path_ne_dist s1
      · exact absurd h1 (by simp)
      · exact absurd h1 (by simp)
      · exact absurd h1 (by simp)
  · intro p i hp
    cases hb : someTaskFailed env ("tmpDist" ++ s1) with
    | true =>
      rcases failure_trace_cases env s1 s2 dur dex tot hb _ hp with h1 | h1
      · rcases events_cases env _ dur _ h1 with ⟨op, heq, -⟩ | ⟨l, heq, -⟩ <;>
          exact absurd heq (by simp)
      · exact absurd h1 (by simp)
    | false =>
      rcases success_trace_cases env s1 s2 dur dex tot hb _ hp with
        h1 | ⟨-, h1⟩ | h1 | h1 | ⟨l, -, h1⟩ | h1
      · rcases events_cases env _ dur _ h1 with ⟨op, heq, -⟩ | ⟨l, heq, -⟩ <;>
          exact absurd heq (by simp)
      · exact absurd h1 (by simp)
      · exact absurd h1 (by simp)
      · injection h1 with h2 h3
        subst h2
        exact ⟨⟨s2, rfl⟩, tmpDist_path_ne_dist s2⟩
      · exact absurd h1 (by simp)
      · exact absurd h1 (by simp)

/-! ### Claim C8 -/

/-- Claim C8 (amended): after a run in which all submitted Tasks complete,
the Duration Recorder holds exactly one entry per SUCCEEDING Task — keyed
by the task's unique name, in submission order — and no entry for a failed
Task, and no other keys.  (On a fully successful run this is one entry per
each of the 8 task names.) -/
theorem c8_times_one_entry_per_success (env : String → CmdResult)
    (s1 s2 : String) (dur : String → ℚ) (dex : Bool) (tot : ℚ) :
    (pyMain env s1 s2 dur dex tot).times
      = (tasks.filter (fun t => !taskFailed env ("tmpDist" ++ s1) t)).map
          (fun t => (t.name, dur t.name))
    ∧ ((pyMain env s1 s2 dur dex tot).times.map Prod.fst).Nodup := by
  have htimes : (pyMain env s1 s2 dur dex tot).times
      = (runTasks env ("tmpDist" ++ s1) dur tasks []).times := by
    cases hb : someTaskFailed env ("tmpDist" ++ s1) with
    | true => rw [pyMain_failure_form env s1 s2 dur dex tot hb]
    | false => rw [pyMain_success_form env s1 s2 dur dex tot hb]
  have heq := runTasks_times_eq env ("tmpDist" ++ s1) dur tasks []
    tasks_names_nodup (by simp)
  rw [htimes, heq, List.nil_append]
  refine ⟨rfl, ?_⟩
  rw [List.map_map]
  have hcomp : (Prod.fst ∘ fun t : TaskDef => (t.name, dur t.name))
      = TaskDef.name := rfl
  rw [hcomp]
  exact List.Nodup.sublist
    (List.Sublist.map TaskDef.name (List.filter_sublist tasks)) tasks_names_nodup

/-- Counterexample to C8 as stated: a run in which all eight submitted
Tasks complete but `build_standalone_cli` fails — the recorder ends with 7
entries, none of them for the failed task's name, not with one entry per
each of the 8 registered names. -/
theorem c8_counterexample :
    (pyMain envCliFails "" "0" (fun _ => mkRat 1 1) true (mkRat 5 1)).times.length = 7
    ∧ (∀ p ∈ (pyMain envCliFails "" "0" (fun _ => mkRat 1 1) true (mkRat 5 1)).times,
        p.1 ≠ "build_standalone_cli")
    ∧ taskFailed envCliFails "tmpDist" buildStandaloneCli = true := by
  refine ⟨by decide, by decide, by decide⟩

/-! ### Claim C4 -/

/-- Claim C4 (amended): on a fully successful run the console output is one
line per task — the task's elapsed seconds first rounded to three decimals
by `round(..., 3)` and then FORMATTED WITH TWO decimal digits by the
`:2.2f` format spec, followed by `"s "` and the task name — sorted
ascending by duration (stably), followed by the final line
`"<total>s total"` whose value is the wall-clock time from run start to
report time (the `total` parameter), also with two decimal digits. -/
theorem c4_report_two_decimals_sorted (env : String → CmdResult)
    (s1 s2 : String) (dur : String → ℚ) (dex : Bool) (tot : ℚ)
    (h : someTaskFailed env ("tmpDist" ++ s1) = false) :
    ∃ ns : List String,
      tracePrints (pyMain env s1 s2 dur dex tot).trace
        = ns.map (taskLine (pyMain env s1 s2 dur dex tot).times)
          ++ [fmt22 tot ++ "s total"]
      ∧ ns.Perm ((pyMain env s1 s2 dur dex tot).times.map Prod.fst)
      ∧ ns.Pairwise (fun a b =>
          dlookup (pyMain env s1 s2 dur dex tot).times a
            ≤ dlookup (pyMain env s1 s2 dur dex tot).times b) := by
  rw [pyMain_success_form env s1 s2 dur dex tot h]
  dsimp only
  have hev : tracePrints (runTasks env ("tmpDist" ++ s1) dur tasks []).events
      = [] := by
    rw [tracePrints, List.filterMap_eq_nil_iff]
    intro ev hev
    obtain ⟨op, rfl, -⟩ := events_of_no_failure env _ dur h ev hev
    rfl
  have hB : tracePrints ((if dex = true
        then [Event.move ["dist"] ["tmpDist" ++ s2]] else [])
      ++ [Event.move ["tmpDist" ++ s1] ["dist"],
          Event.rmtree ["tmpDist" ++ s2] true]) = [] := by
    cases dex <;> rfl
  have hmap : tracePrints ((reportLines
        (runTasks env ("tmpDist" ++ s1) dur tasks []).times tot).map Event.print)
      = reportLines (runTasks env ("tmpDist" ++ s1) dur tasks []).times tot := by
    rw [tracePrints, List.filterMap_map]
    show List.filterMap some _ = _
    exact List.filterMap_some _
  have hexit : tracePrints [Event.exitProcess 0] = [] := rfl
  rw [show ∀ A B C D : List Event, tracePrints (A ++ B ++ C ++ D)
      = tracePrints A ++ tracePrints B ++ tracePrints C ++ tracePrints D by
    intro A B C D; simp [tracePrints, List.filterMap_append]]
  rw [hev, hB, hmap, hexit, List.nil_append, List.append_nil, List.nil_append]
  refine ⟨List.insertionSort
    (fun a b => dlookup (runTasks env ("tmpDist" ++ s1) dur tasks []).times a
      ≤ dlookup (runTasks env ("tmpDist" ++ s1) dur tasks []).times b)
    ((runTasks env ("tmpDist" ++ s1) dur tasks []).times.map Prod.fst),
    rfl, List.perm_insertionSort _ _, ?_⟩
  haveI : IsTotal String (fun a b =>
      dlookup (runTasks env ("tmpDist" ++ s1) dur tasks []).times a
        ≤ dlookup (runTasks env ("tmpDist" ++ s1) dur tasks []).times b) :=
    ⟨fun a b => le_total _ _⟩
  haveI : IsTrans String (fun a b =>
      dlookup (runTasks env ("tmpDist" ++ s1) dur tasks []).times a
        ≤ dlookup (runTasks env ("tmpDist" ++ s1) dur tasks []).times b) :=
    ⟨fun a b c hab hbc => le_trans hab hbc⟩
  exact List.sorted_insertionSort _ _

/-- Counterexample to C4 as stated: a task measured at exactly 0.375
seconds is reported as `0.38s ...` — the printed seconds carry two decimal
digits (format `2.2f`), not the claimed three decimals, which would read
`0.375s ...`. -/
theorem c4_counterexample :
    Event.print "0.38s build_esm_types"
        ∈ (pyMain envAllOk "" "0" (fun _ => mkRat 3 8) false (mkRat 10 1)).trace
    ∧ taskLine [("build_esm_types", mkRat 3 8)] "build_esm_types"
        = "0.38s build_esm_types"
    ∧ specTaskLine3 "build_esm_types" (mkRat 3 8) = "0.375s build_esm_types"
    ∧ Event.print "0.375s build_esm_types"
        ∉ (pyMain envAllOk "" "0" (fun _ => mkRat 3 8) false (mkRat 10 1)).trace := by
  refine ⟨by decide, by decide, by decide, by decide⟩

/-- Witness for C4 (amended) on a fully successful run. -/
theorem c4_witness :
    someTaskFailed envAllOk ("tmpDist" ++ "") = false
    ∧ ∃ ns : List String,
        tracePrints (pyMain envAllOk "" "0" (fun _ => mkRat 3 8) false (mkRat 10 1)).trace
          = ns.map (taskLine (pyMain envAllOk "" "0" (fun _ => mkRat 3 8) false (mkRat 10 1)).times)
            ++ [fmt22 (mkRat 10 1) ++ "s total"]
        ∧ ns.Perm ((pyMain envAllOk "" "0" (fun _ => mkRat 3 8) false (mkRat 10 1)).times.map Prod.fst)
        ∧ ns.Pairwise (fun a b =>
            dlookup (pyMain envAllOk "" "0" (fun _ => mkRat 3 8) false (mkRat 10 1)).times a
              ≤ dlookup (pyMain envAllOk "" "0" (fun _ => mkRat 3 8) false (mkRat 10 1)).times b) :=
  ⟨by decide,
   c4_report_two_decimals_sorted envAllOk "" "0" (fun _ => mkRat 3 8) false
     (mkRat 10 1) (by decide)⟩

end ConvexBuild
